import Mathlib

/-!
Shallow embedding of the telegraf `binance` input plugin
(`plugins/inputs/binance/binance.go`).

The plugin has two entry points:
* `Init` — validates the configuration, derives the trading symbol and the
  two query URLs, and performs one HTTP GET against the exchange-info
  endpoint to verify the symbol;
* `Gather` — performs one HTTP GET against the price endpoint, decodes the
  JSON body, parses the price string and hands one metric and any errors to
  the accumulator.

The network is modelled as an explicit input (`HttpResult`): a transport
failure or a response consisting of a status code and a body.  A response
body is modelled as the stream of JSON values that successive
`json.NewDecoder(resp.Body).Decode` calls would read.  The accumulator is
modelled by the output of `Gather`: the ordered list of errors passed to
`acc.AddError`, the list of metrics passed to `acc.AddFields`, and the
`error` value returned by `Gather` itself (`none` = `nil`).  Timestamps are
attached by the accumulator (an external collaborator) and are not part of
the model; a metric here is (measurement name, fields, tags).
-/

namespace BinancePlugin

/-! URL constants from the source. -/

def baseApiUrlString : String := "https://api.binance.com/api/v3"

def priceUrlString : String := baseApiUrlString ++ "/ticker/price"

def exchangeInfoUrlString : String := baseApiUrlString ++ "/exchangeInfo"

/-- The fixed header map sent with every request. -/
def header : List (String × List String) :=
  [("User-Agent", ["Telegraf"]),
   ("Accept", ["application/json"]),
   ("Content-Type", ["application/json"])]

/-- The remote error body shape: `{ "code": int, "msg": string }`. -/
structure payload where
  code : Int
  msg : String
deriving Repr, DecidableEq

/-- The success body shape: `{ "symbol": string, "price": string }`. -/
structure tick where
  symbol : String
  price : String
deriving Repr, DecidableEq

/-! A minimal JSON value type.  JSON numbers are modelled as integers,
which covers every numeric field the plugin decodes (the remote error
`code`); the plugin never decodes a fractional JSON number. -/

inductive Json where
  | null
  | boolean (b : Bool)
  | num (n : Int)
  | str (s : String)
  | arr (elems : List Json)
  | obj (fields : List (String × Json))

/-- Field lookup in a decoded JSON object.  `encoding/json` lets a later
duplicate key overwrite an earlier one, hence the fold keeps the last
occurrence. -/
def jsonLookup (fs : List (String × Json)) (k : String) : Option Json :=
  fs.foldl (fun acc f => if f.1 = k then some f.2 else acc) none

/-- Go `json.Decode` of one JSON value into `*payload`: `null` and missing
fields leave the zero value; the `code` field must be a JSON number and the
`msg` field a JSON string; any other top-level value is a type error. -/
def decodePayloadJson : Json → Except String payload
  | Json.null => Except.ok ⟨0, ""⟩
  | Json.obj fs =>
    match jsonLookup fs "code", jsonLookup fs "msg" with
    | some (Json.str _), _ =>
      Except.error "json: cannot unmarshal string into Go struct field payload.code of type int"
    | some (Json.boolean _), _ =>
      Except.error "json: cannot unmarshal bool into Go struct field payload.code of type int"
    | some (Json.arr _), _ =>
      Except.error "json: cannot unmarshal array into Go struct field payload.code of type int"
    | some (Json.obj _), _ =>
      Except.error "json: cannot unmarshal object into Go struct field payload.code of type int"
    | _, some (Json.num _) =>
      Except.error "json: cannot unmarshal number into Go struct field payload.msg of type string"
    | _, some (Json.boolean _) =>
      Except.error "json: cannot unmarshal bool into Go struct field payload.msg of type string"
    | _, some (Json.arr _) =>
      Except.error "json: cannot unmarshal array into Go struct field payload.msg of type string"
    | _, some (Json.obj _) =>
      Except.error "json: cannot unmarshal object into Go struct field payload.msg of type string"
    | some (Json.num n), some (Json.str m) => Except.ok ⟨n, m⟩
    | some (Json.num n), _ => Except.ok ⟨n, ""⟩
    | _, some (Json.str m) => Except.ok ⟨0, m⟩
    | _, _ => Except.ok ⟨0, ""⟩
  | _ => Except.error "json: cannot unmarshal value into Go value of type binance.payload"

/-- Go `json.Decode` of one JSON value into `*tick`: `null` and missing
fields leave the zero value; both fields must be JSON strings. -/
def decodeTickJson : Json → Except String tick
  | Json.null => Except.ok ⟨"", ""⟩
  | Json.obj fs =>
    match jsonLookup fs "symbol", jsonLookup fs "price" with
    | some (Json.str s), some (Json.str p) => Except.ok ⟨s, p⟩
    | some (Json.str s), none => Except.ok ⟨s, ""⟩
    | some (Json.str s), some Json.null => Except.ok ⟨s, ""⟩
    | none, some (Json.str p) => Except.ok ⟨"", p⟩
    | some Json.null, some (Json.str p) => Except.ok ⟨"", p⟩
    | none, none => Except.ok ⟨"", ""⟩
    | some Json.null, none => Except.ok ⟨"", ""⟩
    | none, some Json.null => Except.ok ⟨"", ""⟩
    | some Json.null, some Json.null => Except.ok ⟨"", ""⟩
    | _, _ => Except.error "json: cannot unmarshal value into Go struct field of type string"
  | _ => Except.error "json: cannot unmarshal value into Go value of type binance.tick"

/-- One `Decode` call against the body stream: reads the next JSON value,
or fails with `EOF` when the stream is exhausted. -/
def decodePayloadStream : List Json → Except String (payload × List Json)
  | [] => Except.error "EOF"
  | j :: rest =>
    match decodePayloadJson j with
    | Except.ok p => Except.ok (p, rest)
    | Except.error e => Except.error e

/-- One `Decode` call reading the next JSON value as a `tick`. -/
def decodeTickStream : List Json → Except String (tick × List Json)
  | [] => Except.error "EOF"
  | j :: rest =>
    match decodeTickJson j with
    | Except.ok t => Except.ok (t, rest)
    | Except.error e => Except.error e

/-! Model of `strings.TrimSpace` and `strconv.ParseFloat`. -/

/-- Go `unicode.IsSpace` restricted to Latin-1, which contains every
whitespace character the plugin can meet in an ASCII/Latin-1 price string:
`\t`, `\n`, vertical tab, form feed, `\r`, space, NEL (U+0085) and NBSP
(U+00A0). -/
def goIsSpace (c : Char) : Bool :=
  c == '\t' || c == '\n' || c.toNat == 11 || c.toNat == 12 || c == '\r' ||
    c == ' ' || c.toNat == 133 || c.toNat == 160

/-- Drop leading and trailing whitespace from a character list. -/
def trimSpaceChars (l : List Char) : List Char :=
  (l.dropWhile goIsSpace).rdropWhile goIsSpace

/-- Go `strings.TrimSpace`: drop leading and trailing whitespace. -/
def goTrimSpace (s : String) : String :=
  ⟨trimSpaceChars s.toList⟩

/-- Numeric value of a digit string, most significant digit first. -/
def digitsToNat (ds : List Char) : Nat :=
  ds.foldl (fun a c => a * 10 + (c.toNat - 48)) 0

/-- Exponent digits: at least one digit, nothing else. -/
def parseExpDigits (l : List Char) : Option Int :=
  if l ≠ [] ∧ l.all Char.isDigit then some (digitsToNat l : Int) else none

/-- Exponent part after `e`/`E`: optional sign, then digits. -/
def parseExponent : List Char → Option Int
  | [] => none
  | '+' :: r => parseExpDigits r
  | '-' :: r => (parseExpDigits r).map Neg.neg
  | l => parseExpDigits l

/-- Unsigned decimal: digits, optional fraction, optional exponent; at
least one digit in the mantissa. -/
def parseUnsignedFloat (l : List Char) : Option ℚ :=
  let ip := l.takeWhile Char.isDigit
  let r1 := l.dropWhile Char.isDigit
  let fr : List Char × List Char :=
    match r1 with
    | '.' :: r => (r.takeWhile Char.isDigit, r.dropWhile Char.isDigit)
    | _ => ([], r1)
  if ip = [] ∧ fr.1 = [] then none
  else
    let mant : ℚ := (digitsToNat ip : ℚ) + (digitsToNat fr.1 : ℚ) / ((10 : ℚ) ^ fr.1.length)
    match fr.2 with
    | [] => some mant
    | 'e' :: r => (parseExponent r).map (fun e => mant * (10 : ℚ) ^ e)
    | 'E' :: r => (parseExponent r).map (fun e => mant * (10 : ℚ) ^ e)
    | _ => none

/-- Signed decimal: optional leading sign. -/
def parseFloatSigned : List Char → Option ℚ
  | '+' :: r => parseUnsignedFloat r
  | '-' :: r => (parseUnsignedFloat r).map Neg.neg
  | l => parseUnsignedFloat l

/-- Model of `strconv.ParseFloat(s, 64)` on its decimal forms, following
the Go convention of returning a value together with an error: on a syntax
error the returned value is `0`.  The numeric value is kept exactly (as a
rational); IEEE-754 rounding, hexadecimal floats and the `inf`/`nan` forms
are not exercised by the plugin's claims and are outside the model. -/
def parseFloatGo (s : String) : ℚ × Option String :=
  match parseFloatSigned s.toList with
  | some q => (q, none)
  | none => (0, some ("strconv.ParseFloat: parsing \"" ++ s ++ "\": invalid syntax"))

/-! The collector state and the network model. -/

/-- The configured collector after `Init`: the validated configuration and
the two resolved URLs, kept as the strings handed to `url.Parse` (for the
fragment-free URLs every claim computes with, this is also the string
`url.URL.String()` yields back). -/
structure Binance where
  baseAsset : String
  quoteAsset : String
  tags : List (String × String)
  priceURL : String
  exchangeInfoURL : String
deriving Repr, DecidableEq

/-- The derived trading symbol, as computed at every use site in the
source: `b.BaseAsset + b.QuoteAsset`. -/
def derivedSymbol (b : Binance) : String :=
  b.baseAsset ++ b.quoteAsset

/-- Outcome of one outbound HTTP call: a transport error, or a response
with a status code and a body (the stream of JSON values successive decoder
calls read from it). -/
inductive HttpResult where
  | failure (e : String)
  | success (status : Nat) (body : List Json)

/-- An emitted metric: measurement name, fields and tags (the timestamp is
attached by the accumulator). -/
structure Metric where
  name : String
  fields : List (String × ℚ)
  tags : List (String × String)
deriving Repr, DecidableEq

/-- Go map assignment `m[k] = v`: overwrite an existing key or append. -/
def mapSet (m : List (String × ℚ)) (k : String) (v : ℚ) : List (String × ℚ) :=
  if m.any (fun p => p.1 = k) then m.map (fun p => if p.1 = k then (k, v) else p)
  else m ++ [(k, v)]

/-- Everything one `Gather` call hands to the outside world: the errors
passed to `acc.AddError` in order, the metrics passed to `acc.AddFields`,
and the returned `error` (`none` = `nil`). -/
structure GatherOut where
  errors : List String
  metrics : List Metric
  ret : Option String
deriving Repr, DecidableEq

/-- The remote-status error text used by both `Init` and `Gather`:
`binance responsed with status %s (code %d) for symbol %s`. -/
def remoteStatusMsg (msg : String) (code : Int) (sym : String) : String :=
  "binance responsed with status " ++ msg ++ " (code " ++ toString code ++
    ") for symbol " ++ sym

/-! Model of `url.Parse` for the strings the plugin builds: the constant
valid prefix `<scheme>://<host><path>?` followed by the unescaped query.
Go first cuts the fragment off at the first `#`; the part before the
fragment is rejected if it contains an ASCII control byte, its scheme,
host and path (all constant here) parse, and the query is stored raw
without validation; a non-empty fragment is then unescaped
(`setFragment`), which fails on a malformed percent-escape (control
characters after the `#` are accepted).  So for the plugin's URL strings
`url.Parse` fails exactly on a control character before the first `#` or
an invalid percent-escape after it. -/

/-- An ASCII control character (including DEL), which `url.Parse` rejects
before the fragment. -/
def isCtl (c : Char) : Bool :=
  c.toNat < 32 || c.toNat == 127

/-- Value of a hexadecimal digit. -/
def hexDigitVal (c : Char) : Option Nat :=
  if '0' ≤ c ∧ c ≤ '9' then some (c.toNat - 48)
  else if 'a' ≤ c ∧ c ≤ 'f' then some (c.toNat - 87)
  else if 'A' ≤ c ∧ c ≤ 'F' then some (c.toNat - 55)
  else none

/-- Go `unescape`'s scan over the percent-escapes: every `%` must be
followed by two hexadecimal digits. -/
def validEscapes : List Char → Bool
  | [] => true
  | c :: r =>
    if c = '%' then
      match r with
      | a :: b :: r2 =>
        ((hexDigitVal a).isSome && (hexDigitVal b).isSome) && validEscapes r2
      | _ => false
    else validEscapes r

/-- Result of `url.Parse` on a plugin URL string: `none` on success, or
the error text (the model keeps the escape-error text fixed instead of
quoting the offending escape). -/
def urlParseErr (s : String) : Option String :=
  if (s.toList.takeWhile (fun c => c != '#')).any isCtl then
    some "net/url: invalid control character in URL"
  else if !validEscapes ((s.toList.dropWhile (fun c => c != '#')).drop 1) then
    some "invalid URL escape"
  else none

/-! `Init` — translation of `(*Binance).Init`.

The single exchange-info HTTP call is an explicit input `net`; the second
output component is the list of URLs actually fetched, so "no network
access" is visible as an empty list. -/

/-- The query string `fmt.Sprintf("symbol=%s%s", b.BaseAsset, b.QuoteAsset)`. -/
def queryString (base quote : String) : String :=
  "symbol=" ++ base ++ quote

/-- The price URL string handed to `url.Parse`. -/
def priceURLString (base quote : String) : String :=
  priceUrlString ++ "?" ++ queryString base quote

/-- The exchange-info URL string handed to `url.Parse`. -/
def exchangeInfoURLString (base quote : String) : String :=
  exchangeInfoUrlString ++ "?" ++ queryString base quote

/-- The status handling of the exchange-info response in `Init`: non-200
decodes the body as a remote error payload and fails either way; 200
succeeds without reading the body. -/
def initResponse (base quote : String) (status : Nat) (body : List Json) :
    Except String Binance × List String :=
  if status ≠ 200 then
    match decodePayloadStream body with
    | Except.error e =>
      (Except.error ("cannot decode response from " ++
         exchangeInfoURLString base quote ++ ": " ++ e),
       [exchangeInfoURLString base quote])
    | Except.ok (p, _) =>
      (Except.error (remoteStatusMsg p.msg p.code (base ++ quote)),
       [exchangeInfoURLString base quote])
  else
    (Except.ok ⟨base, quote, [("base", base), ("quote", quote)],
       priceURLString base quote, exchangeInfoURLString base quote⟩,
     [exchangeInfoURLString base quote])

/-- The network phase of `Init`: the single `client.Do` call against the
exchange-info URL and its outcome handling. -/
def initVerify (base quote : String) (net : HttpResult) :
    Except String Binance × List String :=
  match net with
  | HttpResult.failure e =>
    (Except.error ("failed to get response from " ++
       exchangeInfoURLString base quote ++ ": " ++ e),
     [exchangeInfoURLString base quote])
  | HttpResult.success status body => initResponse base quote status body

/-- Translation of `Init`.  Returns either the configured collector or the
error `Init` returns, together with the list of URLs requested. -/
def Init (base quote : String) (net : HttpResult) :
    Except String Binance × List String :=
  if base = "" ∨ quote = "" then
    (Except.error "base_asset and quote_asset cannot be empty", [])
  else
    match urlParseErr (priceURLString base quote) with
    | some e => (Except.error ("failed to parse url " ++ priceUrlString ++ ": " ++ e), [])
    | none =>
      match urlParseErr (exchangeInfoURLString base quote) with
      | some e =>
        (Except.error ("failed to parse url " ++ exchangeInfoUrlString ++ ": " ++ e), [])
      | none =>
        initVerify base quote net

/-! `Gather` — translation of `(*Binance).Gather`. -/

/-- A pending HTTP request (the context/cancel pair is not observable in
the model). -/
structure Request where
  method : String
  url : String
  hdr : List (String × List String)
deriving Repr, DecidableEq

/-- Translation of `createRequest`: `http.NewRequestWithContext`'s error is
discarded (`r, _ := ...`), so the error component is always `none`. -/
def createRequest (b : Binance) : Request × Option String :=
  ({ method := "GET", url := b.priceURL, hdr := header }, none)

/-- The tail of `Gather` after the status check: decode the body as a
`tick`, parse the price (Go multi-assignment stores `ParseFloat`'s value
under `"price"` before the error is inspected), and call `AddFields`. -/
def gatherTickSection (b : Binance) (body : List Json) : GatherOut :=
  match decodeTickStream body with
  | Except.error e =>
    { errors := ["cannot decode response from " ++ b.priceURL ++ ": " ++ e],
      metrics := [], ret := none }
  | Except.ok (t, _) =>
    let pv := parseFloatGo (goTrimSpace t.price)
    let fields := mapSet [] "price" pv.1
    match pv.2 with
    | some e =>
      { errors := ["cannot parse price " ++ t.price ++ ": " ++ e],
        metrics := [{ name := "binance", fields := fields, tags := b.tags }],
        ret := none }
    | none =>
      { errors := [],
        metrics := [{ name := "binance", fields := fields, tags := b.tags }],
        ret := none }

/-- Prepend one `AddError` call to an outcome. -/
def prependError (e : String) (o : GatherOut) : GatherOut :=
  { o with errors := e :: o.errors }

/-- The status handling of the price response in `Gather`: a non-200
status decodes the error payload (returning the decode failure to the
caller when that fails, as the source does) and otherwise reports the
remote error and falls through to the tick section; a 200 status goes to
the tick section directly. -/
def gatherResponse (b : Binance) (status : Nat) (body : List Json) : GatherOut :=
  if status ≠ 200 then
    match decodePayloadStream body with
    | Except.error e =>
      { errors := [], metrics := [],
        ret := some ("cannot decode response from " ++ b.priceURL ++ ": " ++ e) }
    | Except.ok (p, rest) =>
      prependError (remoteStatusMsg p.msg p.code (derivedSymbol b))
        (gatherTickSection b rest)
  else
    gatherTickSection b body

/-- `Gather` after the (never-failing) request construction: the transport
call, then the response handling. -/
def gatherMain (b : Binance) (net : HttpResult) : GatherOut :=
  match net with
  | HttpResult.failure e =>
    { errors := ["failed to get response from " ++ b.priceURL ++ ": " ++ e],
      metrics := [], ret := none }
  | HttpResult.success status body => gatherResponse b status body

/-- Translation of `Gather`: build the request (whose error branch is kept
as written in the source), then run the main body. -/
def Gather (b : Binance) (net : HttpResult) : GatherOut :=
  match (createRequest b).2 with
  | some e =>
    { errors := [], metrics := [], ret := some ("failed to create request: " ++ e) }
  | none => gatherMain b net

/-! Model of `net/url` query handling, used to read the `symbol` query
parameter back out of the resolved URL strings.  This follows
`url.Parse`'s split of the URL (fragment after the first `#`, query after
the first `?`) and `url.ParseQuery`/`url.Values.Get` (split the raw query
on `&`, skip empty pairs, pairs containing `;`, and pairs whose
percent-unescape fails; cut each pair at the first `=`; `Get` returns the
first value for the key). -/

/-- Go `url.QueryUnescape`: `+` becomes a space, `%XY` a byte, anything
else is literal; an incomplete or non-hexadecimal escape is an error. -/
def queryUnescape : List Char → Option (List Char)
  | [] => some []
  | c :: r =>
    if c = '%' then
      match r with
      | a :: b :: r2 =>
        match hexDigitVal a, hexDigitVal b with
        | some x, some y => (queryUnescape r2).map (fun t => Char.ofNat (16 * x + y) :: t)
        | _, _ => none
      | _ => none
    else if c = '+' then (queryUnescape r).map (fun t => ' ' :: t)
    else (queryUnescape r).map (fun t => c :: t)

/-- Split a raw query on `&` (the `strings.Cut` loop in `parseQuery`). -/
def splitAmp : List Char → List (List Char)
  | [] => [[]]
  | c :: r =>
    if c = '&' then [] :: splitAmp r
    else
      match splitAmp r with
      | [] => [[c]]
      | s :: ss => (c :: s) :: ss

/-- `strings.Cut(seg, "=")`: the part before the first `=` and the part
after it. -/
def cutAtEq : List Char → List Char × List Char
  | [] => ([], [])
  | c :: r => if c = '=' then ([], r) else ((c :: (cutAtEq r).1), (cutAtEq r).2)

/-- One key/value pair of the query: empty pairs, pairs containing `;`,
and pairs that fail to unescape are dropped, as `url.ParseQuery` drops
them. -/
def parsePair (seg : List Char) : Option (List Char × List Char) :=
  if seg = [] then none
  else if ';' ∈ seg then none
  else
    match queryUnescape (cutAtEq seg).1, queryUnescape (cutAtEq seg).2 with
    | some k, some v => some (k, v)
    | _, _ => none

/-- Go `url.ParseQuery`, keeping the pairs in order. -/
def parseQueryChars (l : List Char) : List (List Char × List Char) :=
  (splitAmp l).filterMap parsePair

/-- `url.Values.Get`: the first value recorded for the key. -/
def queryGet (l : List Char) (k : String) : Option String :=
  ((parseQueryChars l).find? (fun p => p.1 = k.toList)).map (fun p => String.mk p.2)

/-- Everything after the first `?` of a character list. -/
def afterQMark : List Char → List Char
  | [] => []
  | c :: r => if c = '?' then r else afterQMark r

/-- The raw query of a URL string: strip the fragment (everything from the
first `#`), then take what follows the first `?`. -/
def rawQueryOf (u : String) : List Char :=
  afterQMark (u.toList.takeWhile (fun c => c != '#'))

/-- A character that passes through the whole URL pipeline verbatim: it is
not an ASCII control character (which would make `url.Parse` fail), not a
query-pair separator (`&`), not the rejected separator `;`, not the start
of a percent escape (`%`), not `+` (which unescapes to a space), and not
`#` (which would start the fragment). -/
def queryPlainChar (c : Char) : Bool :=
  !(isCtl c) && c != '&' && c != ';' && c != '%' && c != '+' && c != '#'

/-- The BTC/USDT collector produced by a successful `Init`, used as the
concrete configuration in the counterexample evaluations. -/
def bBTCUSDT : Binance :=
  { baseAsset := "BTC", quoteAsset := "USDT",
    tags := [("base", "BTC"), ("quote", "USDT")],
    priceURL := "https://api.binance.com/api/v3/ticker/price?symbol=BTCUSDT",
    exchangeInfoURL := "https://api.binance.com/api/v3/exchangeInfo?symbol=BTCUSDT" }

/-- Substring containment, used to state that an error message carries a
piece of data. -/
def strContains (hay sub : String) : Prop :=
  ∃ pre suf : String, hay = pre ++ (sub ++ suf)

/-! Helper lemmas. -/

theorem rdropWhile_cons_of_neg {α : Type} (p : α → Bool) (a : α) (t : List α)
    (h : p a = false) :
    List.rdropWhile p (a :: t) = a :: List.rdropWhile p t := by
  unfold List.rdropWhile
  rw [List.reverse_cons, List.dropWhile_append]
  split
  case isTrue h1 =>
    have h2 : List.dropWhile p t.reverse = [] := by simpa using h1
    simp [List.dropWhile_cons, h, h2]
  case isFalse h1 =>
    simp [List.reverse_append]

theorem dropWhile_trimSpaceChars (l : List Char) :
    List.dropWhile goIsSpace (trimSpaceChars l) = trimSpaceChars l := by
  unfold trimSpaceChars
  cases h : l.dropWhile goIsSpace with
  | nil => simp [List.rdropWhile]
  | cons a t =>
    have hidem := List.dropWhile_idempotent goIsSpace l
    rw [h] at hidem
    by_cases hpa : goIsSpace a
    · exfalso
      rw [List.dropWhile_cons, if_pos hpa] at hidem
      have hle := (List.dropWhile_suffix (l := t) goIsSpace).length_le
      rw [hidem] at hle
      simp at hle
    · have ha : goIsSpace a = false := by simpa using hpa
      rw [rdropWhile_cons_of_neg goIsSpace a t ha]
      simp [List.dropWhile_cons, ha]

theorem trimSpaceChars_idem (l : List Char) :
    trimSpaceChars (trimSpaceChars l) = trimSpaceChars l := by
  show ((trimSpaceChars l).dropWhile goIsSpace).rdropWhile goIsSpace = trimSpaceChars l
  rw [dropWhile_trimSpaceChars]
  show List.rdropWhile goIsSpace ((l.dropWhile goIsSpace).rdropWhile goIsSpace) =
    trimSpaceChars l
  exact List.rdropWhile_idempotent goIsSpace (l.dropWhile goIsSpace)

theorem goTrimSpace_idem (s : String) :
    goTrimSpace (goTrimSpace s) = goTrimSpace s :=
  congrArg String.mk (trimSpaceChars_idem s.toList)

theorem remoteStatusMsg_carries (msg : String) (code : Int) (sym : String) :
    strContains (remoteStatusMsg msg code sym) msg ∧
    strContains (remoteStatusMsg msg code sym) (toString code) ∧
    strContains (remoteStatusMsg msg code sym) sym := by
  refine ⟨⟨"binance responsed with status ",
           " (code " ++ toString code ++ ") for symbol " ++ sym, ?_⟩,
          ⟨"binance responsed with status " ++ msg ++ " (code ",
           ") for symbol " ++ sym, ?_⟩,
          ⟨"binance responsed with status " ++ msg ++ " (code " ++ toString code ++
             ") for symbol ", "", ?_⟩⟩ <;>
    simp [remoteStatusMsg, String.append_assoc]

/-! Claim theorems. -/

/-- C8: for every price string, parsing after trimming surrounding
whitespace (the pipeline `strconv.ParseFloat(strings.TrimSpace(s), 64)` on
line 151) yields the same numeric result as running that pipeline on the
already-trimmed string: trim-then-parse is insensitive to surrounding
whitespace. -/
theorem trim_then_parse_agrees_with_parse_of_trimmed (s : String) :
    parseFloatGo (goTrimSpace s) = parseFloatGo (goTrimSpace (goTrimSpace s)) := by
  rw [goTrimSpace_idem]

/-- C9: a transport failure during `Gather` reports exactly one error to
the accumulator, emits no metric, and returns `nil`, so the call completes
normally and later invocations (which depend only on their own inputs) are
unaffected. -/
theorem gather_transport_failure_one_error_no_metric (b : Binance) (e : String) :
    Gather b (HttpResult.failure e) =
      { errors := ["failed to get response from " ++ b.priceURL ++ ": " ++ e],
        metrics := [], ret := none } := rfl

/-- C10: `createRequest` discards the error of `http.NewRequestWithContext`
and always returns a `nil` error, so the `failed to create request`
early-return branch of `Gather` is unreachable and every invocation
proceeds to the outbound HTTP call (`gatherMain`). -/
theorem createRequest_error_unreachable (b : Binance) (net : HttpResult) :
    (createRequest b).2 = none ∧ Gather b net = gatherMain b net :=
  ⟨rfl, rfl⟩

/-- C1 (code-bug evaluation): on a 200 response whose tick decodes but
whose price string fails numeric parse, exactly one error is reported and
one metric is emitted with the tag set — but the Go multi-assignment
`fields["price"], err = strconv.ParseFloat(...)` stores the value `0`
under `"price"` before the error is checked, so the emitted fields map
does contain a `price` field (value `0`), contrary to the claim that the
field is absent. -/
theorem gather_unparsable_price_still_sets_price_field :
    Gather bBTCUSDT (HttpResult.success 200
        [Json.obj [("symbol", Json.str "BTCUSDT"), ("price", Json.str "N/A")]]) =
      { errors := ["cannot parse price N/A: strconv.ParseFloat: parsing \"N/A\": invalid syntax"],
        metrics := [{ name := "binance", fields := [("price", 0)],
                      tags := [("base", "BTC"), ("quote", "USDT")] }],
        ret := none } := by
  rfl

/-- C2 (code-bug evaluation): when the response status is not 200 and the
body fails to decode as a remote error payload, `Gather` takes the
`return fmt.Errorf(...)` branch: it returns a non-`nil` error to the
caller, reporting nothing through the accumulator — contrary to the claim
that every outcome returns `nil` with failures reported only through the
accumulator. -/
theorem gather_payload_decode_failure_returns_non_nil :
    Gather bBTCUSDT (HttpResult.success 500 [Json.str "oops"]) =
      { errors := [], metrics := [],
        ret := some ("cannot decode response from " ++
          "https://api.binance.com/api/v3/ticker/price?symbol=BTCUSDT" ++
          ": json: cannot unmarshal value into Go value of type binance.payload") } := by
  rfl

/-- C4: an empty base asset or an empty quote asset makes `Init` fail with
the configuration error, and the list of performed network calls is empty:
the failure happens before any network access. -/
theorem init_empty_config_fails_without_network (base quote : String)
    (net : HttpResult) (h : base = "" ∨ quote = "") :
    Init base quote net =
      (Except.error "base_asset and quote_asset cannot be empty", []) := by
  unfold Init
  rw [if_pos h]

/-- C3: when the price response has a status other than 200 and its body
decodes as a remote error payload, `Gather` reports a `GatherError`
carrying the remote message, code and symbol as the first accumulator
error, and then still runs the tick-decode section on the rest of the
body instead of stopping. -/
theorem gather_non200_reports_remote_error_and_continues (b : Binance)
    (st : Nat) (j : Json) (rest : List Json) (p : payload)
    (hst : st ≠ 200) (hp : decodePayloadJson j = Except.ok p) :
    Gather b (HttpResult.success st (j :: rest)) =
      prependError (remoteStatusMsg p.msg p.code (derivedSymbol b))
        (gatherTickSection b rest) ∧
    strContains (remoteStatusMsg p.msg p.code (derivedSymbol b)) p.msg ∧
    strContains (remoteStatusMsg p.msg p.code (derivedSymbol b)) (toString p.code) ∧
    strContains (remoteStatusMsg p.msg p.code (derivedSymbol b)) (derivedSymbol b) := by
  have hc := remoteStatusMsg_carries p.msg p.code (derivedSymbol b)
  refine ⟨?_, hc.1, hc.2.1, hc.2.2⟩
  have hs : decodePayloadStream (j :: rest) = Except.ok (p, rest) := by
    simp [decodePayloadStream, hp]
  show gatherResponse b st (j :: rest) = _
  unfold gatherResponse
  rw [if_pos hst, hs]

/-- C3 witness: a 418 response carrying the remote payload for an invalid
symbol, against the BTC/USDT collector with an exhausted remaining body. -/
theorem gather_non200_reports_remote_error_and_continues_witness :
    (418 ≠ 200) ∧
    decodePayloadJson (Json.obj [("code", Json.num (-1121)), ("msg", Json.str "Invalid symbol.")]) =
      Except.ok ⟨-1121, "Invalid symbol."⟩ ∧
    (Gather bBTCUSDT (HttpResult.success 418
        [Json.obj [("code", Json.num (-1121)), ("msg", Json.str "Invalid symbol.")]]) =
      prependError (remoteStatusMsg "Invalid symbol." (-1121) (derivedSymbol bBTCUSDT))
        (gatherTickSection bBTCUSDT []) ∧
    strContains (remoteStatusMsg "Invalid symbol." (-1121) (derivedSymbol bBTCUSDT))
      "Invalid symbol." ∧
    strContains (remoteStatusMsg "Invalid symbol." (-1121) (derivedSymbol bBTCUSDT))
      (toString (-1121 : Int)) ∧
    strContains (remoteStatusMsg "Invalid symbol." (-1121) (derivedSymbol bBTCUSDT))
      (derivedSymbol bBTCUSDT)) :=
  ⟨by decide, rfl,
   gather_non200_reports_remote_error_and_continues bBTCUSDT 418
     (Json.obj [("code", Json.num (-1121)), ("msg", Json.str "Invalid symbol.")])
     [] ⟨-1121, "Invalid symbol."⟩ (by decide) rfl⟩

/-! URL-parse helper facts used by the `Init` claims. -/

theorem strToList_append (a b : String) : (a ++ b).toList = a.toList ++ b.toList :=
  String.data_append a b

theorem any_isCtl_split (base quote : String)
    (hctl : (base ++ quote).toList.any isCtl = false) :
    base.toList.any isCtl = false ∧ quote.toList.any isCtl = false := by
  rw [strToList_append, List.any_append, Bool.or_eq_false_iff] at hctl
  exact hctl

theorem urlParseErr_none_of_no_hash_ctl (s : String)
    (hhash : '#' ∉ s.toList) (hctl : s.toList.any isCtl = false) :
    urlParseErr s = none := by
  have htake : s.toList.takeWhile (fun c => c != '#') = s.toList := by
    rw [List.takeWhile_eq_self_iff]
    intro x hx
    simp only [bne_iff_ne]
    exact fun he => hhash (he ▸ hx)
  have hdrop : s.toList.dropWhile (fun c => c != '#') = [] := by
    rw [List.dropWhile_eq_nil_iff]
    intro x hx
    simp only [bne_iff_ne]
    exact fun he => hhash (he ▸ hx)
  unfold urlParseErr
  rw [htake, hctl, hdrop]
  rfl

theorem priceURL_parse_ok (base quote : String)
    (hctl : (base ++ quote).toList.any isCtl = false)
    (hhash : '#' ∉ (base ++ quote).toList) :
    urlParseErr (priceURLString base quote) = none := by
  obtain ⟨h1, h2⟩ := any_isCtl_split base quote hctl
  have hm : '#' ∉ base.toList ++ quote.toList := by
    rw [← strToList_append]
    exact hhash
  have hmb : '#' ∉ base.toList := fun h => hm (List.mem_append_left _ h)
  have hmq : '#' ∉ quote.toList := fun h => hm (List.mem_append_right _ h)
  apply urlParseErr_none_of_no_hash_ctl
  · unfold priceURLString queryString
    intro hx
    simp only [strToList_append, List.mem_append] at hx
    rcases hx with (h | h) | (h | h) | h
    · revert h; decide
    · revert h; decide
    · revert h; decide
    · exact hmb h
    · exact hmq h
  · unfold priceURLString queryString
    have ha : (priceUrlString.toList.any isCtl) = false := by decide
    have hb : (("?" : String).toList.any isCtl) = false := by decide
    have hc : (("symbol=" : String).toList.any isCtl) = false := by decide
    simp only [strToList_append, List.any_append]
    rw [ha, hb, hc, h1, h2]
    rfl

theorem exchangeInfoURL_parse_ok (base quote : String)
    (hctl : (base ++ quote).toList.any isCtl = false)
    (hhash : '#' ∉ (base ++ quote).toList) :
    urlParseErr (exchangeInfoURLString base quote) = none := by
  obtain ⟨h1, h2⟩ := any_isCtl_split base quote hctl
  have hm : '#' ∉ base.toList ++ quote.toList := by
    rw [← strToList_append]
    exact hhash
  have hmb : '#' ∉ base.toList := fun h => hm (List.mem_append_left _ h)
  have hmq : '#' ∉ quote.toList := fun h => hm (List.mem_append_right _ h)
  apply urlParseErr_none_of_no_hash_ctl
  · unfold exchangeInfoURLString queryString
    intro hx
    simp only [strToList_append, List.mem_append] at hx
    rcases hx with (h | h) | (h | h) | h
    · revert h; decide
    · revert h; decide
    · revert h; decide
    · exact hmb h
    · exact hmq h
  · unfold exchangeInfoURLString queryString
    have ha : (exchangeInfoUrlString.toList.any isCtl) = false := by decide
    have hb : (("?" : String).toList.any isCtl) = false := by decide
    have hc : (("symbol=" : String).toList.any isCtl) = false := by decide
    simp only [strToList_append, List.any_append]
    rw [ha, hb, hc, h1, h2]
    rfl

theorem init_not_empty (base quote : String) (hb : base ≠ "") (hq : quote ≠ "") :
    ¬(base = "" ∨ quote = "") := by
  intro h
  cases h with
  | inl h => exact hb h
  | inr h => exact hq h

theorem init_reaches_verify (base quote : String) (net : HttpResult)
    (hb : base ≠ "") (hq : quote ≠ "")
    (hp1 : urlParseErr (priceURLString base quote) = none)
    (hp2 : urlParseErr (exchangeInfoURLString base quote) = none) :
    Init base quote net = initVerify base quote net := by
  unfold Init
  rw [if_neg (init_not_empty base quote hb hq), hp1, hp2]

/-- C6: whenever `Init` reaches the network call — its configuration
passed validation (non-empty assets) and both URL strings parsed — and
the exchange-info request comes back with HTTP status 200, `Init`
succeeds and activates the collector, for every possible response body,
which is never inspected. -/
theorem init_succeeds_on_status_200 (base quote : String) (body : List Json)
    (hb : base ≠ "") (hq : quote ≠ "")
    (hp1 : urlParseErr (priceURLString base quote) = none)
    (hp2 : urlParseErr (exchangeInfoURLString base quote) = none) :
    ∃ st : Binance,
      Init base quote (HttpResult.success 200 body) =
        (Except.ok st, [st.exchangeInfoURL]) ∧
      st.baseAsset = base ∧ st.quoteAsset = quote ∧
      st.tags = [("base", base), ("quote", quote)] := by
  refine ⟨{ baseAsset := base, quoteAsset := quote,
            tags := [("base", base), ("quote", quote)],
            priceURL := priceURLString base quote,
            exchangeInfoURL := exchangeInfoURLString base quote }, ?_, rfl, rfl, rfl⟩
  rw [init_reaches_verify base quote _ hb hq hp1 hp2]
  rfl

/-- C6 witness: a 200 exchange-info response whose body is a bare boolean,
which would not decode as any expected payload, still initializes. -/
theorem init_succeeds_on_status_200_witness :
    ("BTC" ≠ "") ∧ ("USDT" ≠ "") ∧
    (urlParseErr (priceURLString "BTC" "USDT") = none) ∧
    (urlParseErr (exchangeInfoURLString "BTC" "USDT") = none) ∧
    (∃ st : Binance,
      Init "BTC" "USDT" (HttpResult.success 200 [Json.boolean true]) =
        (Except.ok st, [st.exchangeInfoURL]) ∧
      st.baseAsset = "BTC" ∧ st.quoteAsset = "USDT" ∧
      st.tags = [("base", "BTC"), ("quote", "USDT")]) :=
  ⟨by decide, by decide, by decide, by decide,
   init_succeeds_on_status_200 "BTC" "USDT" [Json.boolean true]
     (by decide) (by decide) (by decide) (by decide)⟩

/-- C7: a non-200 exchange-info response whose body decodes as a remote
error payload makes `Init` fail with the remote-status error, whose
message contains the remote code, the remote message, and the symbol. -/
theorem init_non200_remote_error_message (base quote : String) (st : Nat)
    (j : Json) (rest : List Json) (p : payload)
    (hb : base ≠ "") (hq : quote ≠ "")
    (hp1 : urlParseErr (priceURLString base quote) = none)
    (hp2 : urlParseErr (exchangeInfoURLString base quote) = none)
    (hst : st ≠ 200) (hp : decodePayloadJson j = Except.ok p) :
    (Init base quote (HttpResult.success st (j :: rest))).1 =
      Except.error (remoteStatusMsg p.msg p.code (base ++ quote)) ∧
    strContains (remoteStatusMsg p.msg p.code (base ++ quote)) (toString p.code) ∧
    strContains (remoteStatusMsg p.msg p.code (base ++ quote)) p.msg ∧
    strContains (remoteStatusMsg p.msg p.code (base ++ quote)) (base ++ quote) := by
  have hc := remoteStatusMsg_carries p.msg p.code (base ++ quote)
  refine ⟨?_, hc.2.1, hc.1, hc.2.2⟩
  have hs : decodePayloadStream (j :: rest) = Except.ok (p, rest) := by
    simp [decodePayloadStream, hp]
  rw [init_reaches_verify base quote _ hb hq hp1 hp2]
  show (initResponse base quote st (j :: rest)).1 = _
  unfold initResponse
  rw [if_pos hst, hs]

/-- C7 witness: a 400 response carrying the invalid-symbol payload fails
initialization with the remote code, message and symbol in the error. -/
theorem init_non200_remote_error_message_witness :
    ("BTC" ≠ "") ∧ ("USDT" ≠ "") ∧
    (urlParseErr (priceURLString "BTC" "USDT") = none) ∧
    (urlParseErr (exchangeInfoURLString "BTC" "USDT") = none) ∧ (400 ≠ 200) ∧
    decodePayloadJson (Json.obj [("code", Json.num (-1121)), ("msg", Json.str "Invalid symbol.")]) =
      Except.ok ⟨-1121, "Invalid symbol."⟩ ∧
    ((Init "BTC" "USDT" (HttpResult.success 400
        [Json.obj [("code", Json.num (-1121)), ("msg", Json.str "Invalid symbol.")]])).1 =
      Except.error (remoteStatusMsg "Invalid symbol." (-1121) ("BTC" ++ "USDT")) ∧
    strContains (remoteStatusMsg "Invalid symbol." (-1121) ("BTC" ++ "USDT"))
      (toString (-1121 : Int)) ∧
    strContains (remoteStatusMsg "Invalid symbol." (-1121) ("BTC" ++ "USDT"))
      "Invalid symbol." ∧
    strContains (remoteStatusMsg "Invalid symbol." (-1121) ("BTC" ++ "USDT"))
      ("BTC" ++ "USDT")) :=
  ⟨by decide, by decide, by decide, by decide, by decide, rfl,
   init_non200_remote_error_message "BTC" "USDT" 400
     (Json.obj [("code", Json.num (-1121)), ("msg", Json.str "Invalid symbol.")])
     [] ⟨-1121, "Invalid symbol."⟩ (by decide) (by decide) (by decide) (by decide)
     (by decide) rfl⟩

/-- C4 witness: the empty base asset with a concrete quote asset. -/
theorem init_empty_config_fails_without_network_witness :
    ("" = "" ∨ "USDT" = "") ∧
    Init "" "USDT" (HttpResult.failure "network touched") =
      (Except.error "base_asset and quote_asset cannot be empty", []) :=
  ⟨Or.inl rfl,
   init_empty_config_fails_without_network "" "USDT" (HttpResult.failure "network touched")
     (Or.inl rfl)⟩

/-! Query-string lemmas for the resolved-URL claim. -/

theorem strMk_toList (s : String) : String.mk s.toList = s := by
  cases s
  rfl

theorem splitAmp_no_amp (l : List Char) (h : ∀ c ∈ l, c ≠ '&') :
    splitAmp l = [l] := by
  induction l with
  | nil => rfl
  | cons c r ih =>
    have hc : c ≠ '&' := h c (List.mem_cons_self c r)
    have ih2 := ih (fun x hx => h x (List.mem_cons_of_mem c hx))
    unfold splitAmp
    rw [if_neg hc, ih2]

theorem queryUnescape_id (l : List Char) (h : ∀ c ∈ l, c ≠ '%' ∧ c ≠ '+') :
    queryUnescape l = some l := by
  induction l with
  | nil => rfl
  | cons c r ih =>
    obtain ⟨h1, h2⟩ := h c (List.mem_cons_self c r)
    have ih2 := ih (fun x hx => h x (List.mem_cons_of_mem c hx))
    unfold queryUnescape
    rw [if_neg h1, if_neg h2, ih2]
    rfl

theorem afterQMark_append (l r : List Char) (h : ∀ c ∈ l, c ≠ '?') :
    afterQMark (l ++ r) = afterQMark r := by
  induction l with
  | nil => rfl
  | cons c t ih =>
    have hc : c ≠ '?' := h c (List.mem_cons_self c t)
    have ih2 := ih (fun x hx => h x (List.mem_cons_of_mem c hx))
    rw [List.cons_append]
    rw [show afterQMark (c :: (t ++ r)) =
      if c = '?' then t ++ r else afterQMark (t ++ r) from rfl]
    rw [if_neg hc, ih2]

theorem parsePair_symbolEq (x : List Char) (hsemi : ';' ∉ x)
    (hun : queryUnescape x = some x) :
    parsePair ('s' :: 'y' :: 'm' :: 'b' :: 'o' :: 'l' :: '=' :: x) =
      some (['s', 'y', 'm', 'b', 'o', 'l'], x) := by
  unfold parsePair
  rw [if_neg (by simp), if_neg (by simp [hsemi])]
  have hcut : cutAtEq ('s' :: 'y' :: 'm' :: 'b' :: 'o' :: 'l' :: '=' :: x) =
      (['s', 'y', 'm', 'b', 'o', 'l'], x) := by
    simp [cutAtEq]
  rw [hcut]
  have hk : queryUnescape ['s', 'y', 'm', 'b', 'o', 'l'] =
      some ['s', 'y', 'm', 'b', 'o', 'l'] := rfl
  rw [hk, hun]

theorem queryGet_symbol_list (x : List Char) (hamp : '&' ∉ x) (hsemi : ';' ∉ x)
    (hun : queryUnescape x = some x) :
    queryGet ('s' :: 'y' :: 'm' :: 'b' :: 'o' :: 'l' :: '=' :: x) "symbol" =
      some (String.mk x) := by
  have hsplit : splitAmp ('s' :: 'y' :: 'm' :: 'b' :: 'o' :: 'l' :: '=' :: x) =
      ['s' :: 'y' :: 'm' :: 'b' :: 'o' :: 'l' :: '=' :: x] := by
    apply splitAmp_no_amp
    intro c hc
    simp only [List.mem_cons] at hc
    rcases hc with h | h | h | h | h | h | h | h
    all_goals first
      | (subst h; decide)
      | exact fun he => hamp (he ▸ h)
  unfold queryGet parseQueryChars
  rw [hsplit, List.filterMap_cons, parsePair_symbolEq x hsemi hun]
  simp [List.find?]

theorem queryGet_symbol_of_plain (pre sym : String)
    (hpreQ : ∀ c ∈ pre.toList, c ≠ '?')
    (hpreH : ∀ c ∈ pre.toList, c ≠ '#')
    (hamp : '&' ∉ sym.toList) (hsemi : ';' ∉ sym.toList)
    (hhash : '#' ∉ sym.toList)
    (hun : queryUnescape sym.toList = some sym.toList) :
    queryGet (rawQueryOf (pre ++ "?" ++ ("symbol=" ++ sym))) "symbol" = some sym := by
  have hraw : rawQueryOf (pre ++ "?" ++ ("symbol=" ++ sym)) =
      's' :: 'y' :: 'm' :: 'b' :: 'o' :: 'l' :: '=' :: sym.toList := by
    unfold rawQueryOf
    have htl : (pre ++ "?" ++ ("symbol=" ++ sym)).toList =
        pre.toList ++ ('?' :: 's' :: 'y' :: 'm' :: 'b' :: 'o' :: 'l' :: '=' :: sym.toList) := by
      simp only [strToList_append, List.append_assoc]
      rfl
    rw [htl]
    have htake : (pre.toList ++
          ('?' :: 's' :: 'y' :: 'm' :: 'b' :: 'o' :: 'l' :: '=' :: sym.toList)).takeWhile
        (fun c => c != '#') =
        pre.toList ++ ('?' :: 's' :: 'y' :: 'm' :: 'b' :: 'o' :: 'l' :: '=' :: sym.toList) := by
      rw [List.takeWhile_eq_self_iff]
      intro x hx
      simp only [bne_iff_ne]
      rcases List.mem_append.mp hx with h | h
      · exact hpreH x h
      · simp only [List.mem_cons] at h
        rcases h with h | h | h | h | h | h | h | h | h
        all_goals first
          | (subst h; decide)
          | exact fun he => hhash (he ▸ h)
    rw [htake, afterQMark_append pre.toList _ hpreQ]
    show afterQMark ('?' :: 's' :: 'y' :: 'm' :: 'b' :: 'o' :: 'l' :: '=' :: sym.toList) = _
    unfold afterQMark
    rw [if_pos rfl]
  rw [hraw, queryGet_symbol_list sym.toList hamp hsemi hun, strMk_toList]

/-- C5 counterexample: with the non-empty assets `"BTC&x=1"` and `"USDT"`
(the symbol is built into the query with no escaping), the `symbol` query
parameter of the resolved price URL is `"BTC"`, not the derived symbol
`"BTC&x=1USDT"`, so the claim fails as stated for arbitrary non-empty
asset strings. -/
theorem url_symbol_param_counterexample :
    (("BTC&x=1" : String) ≠ "" ∧ ("USDT" : String) ≠ "") ∧
    queryGet (rawQueryOf (priceURLString "BTC&x=1" "USDT")) "symbol" = some "BTC" ∧
    queryGet (rawQueryOf (exchangeInfoURLString "BTC&x=1" "USDT")) "symbol" = some "BTC" ∧
    some ("BTC" : String) ≠ some ("BTC&x=1" ++ "USDT") := by
  exact ⟨⟨by decide, by decide⟩, rfl, rfl, by decide⟩

/-- C5 (amended): for non-empty assets made of query-plain characters
(no control characters and none of `&`, `;`, `%`, `+`, `#`), `Init`
succeeds, the configured collector's derived symbol is the case-preserving
concatenation of the assets, and both resolved URLs carry exactly that
symbol as the value of their `symbol` query parameter. -/
theorem url_symbol_param_for_plain_assets (base quote : String) (body : List Json)
    (hb : base ≠ "") (hq : quote ≠ "")
    (hplain : ∀ c ∈ (base ++ quote).toList, queryPlainChar c = true) :
    ∃ st : Binance,
      (Init base quote (HttpResult.success 200 body)).1 = Except.ok st ∧
      derivedSymbol st = base ++ quote ∧
      queryGet (rawQueryOf st.priceURL) "symbol" = some (base ++ quote) ∧
      queryGet (rawQueryOf st.exchangeInfoURL) "symbol" = some (base ++ quote) := by
  have hfacts : ∀ c ∈ (base ++ quote).toList,
      isCtl c = false ∧ c ≠ '&' ∧ c ≠ ';' ∧ c ≠ '%' ∧ c ≠ '+' ∧ c ≠ '#' := by
    intro c hcm
    have h := hplain c hcm
    unfold queryPlainChar at h
    simp only [Bool.and_eq_true, Bool.not_eq_true', bne_iff_ne] at h
    exact ⟨h.1.1.1.1.1, h.1.1.1.1.2, h.1.1.1.2, h.1.1.2, h.1.2, h.2⟩
  have hctl : (base ++ quote).toList.any isCtl = false := by
    rw [List.any_eq_false]
    intro x hx
    simp [(hfacts x hx).1]
  have hamp : '&' ∉ (base ++ quote).toList := fun hm => (hfacts _ hm).2.1 rfl
  have hsemi : ';' ∉ (base ++ quote).toList := fun hm => (hfacts _ hm).2.2.1 rfl
  have hhash : '#' ∉ (base ++ quote).toList := fun hm => (hfacts _ hm).2.2.2.2.2 rfl
  have hun : queryUnescape (base ++ quote).toList = some ((base ++ quote).toList) :=
    queryUnescape_id _ (fun c hc => ⟨(hfacts c hc).2.2.2.1, (hfacts c hc).2.2.2.2.1⟩)
  have hp1 := priceURL_parse_ok base quote hctl hhash
  have hp2 := exchangeInfoURL_parse_ok base quote hctl hhash
  refine ⟨{ baseAsset := base, quoteAsset := quote,
            tags := [("base", base), ("quote", quote)],
            priceURL := priceURLString base quote,
            exchangeInfoURL := exchangeInfoURLString base quote }, ?_, rfl, ?_, ?_⟩
  · rw [init_reaches_verify base quote _ hb hq hp1 hp2]
    rfl
  · show queryGet (rawQueryOf (priceURLString base quote)) "symbol" = some (base ++ quote)
    have hu : priceURLString base quote =
        priceUrlString ++ "?" ++ ("symbol=" ++ (base ++ quote)) := by
      unfold priceURLString queryString
      rw [String.append_assoc "symbol=" base quote]
    rw [hu]
    exact queryGet_symbol_of_plain priceUrlString (base ++ quote)
      (by intro c hc; revert c; decide) (by intro c hc; revert c; decide)
      hamp hsemi hhash hun
  · show queryGet (rawQueryOf (exchangeInfoURLString base quote)) "symbol" =
      some (base ++ quote)
    have hu : exchangeInfoURLString base quote =
        exchangeInfoUrlString ++ "?" ++ ("symbol=" ++ (base ++ quote)) := by
      unfold exchangeInfoURLString queryString
      rw [String.append_assoc "symbol=" base quote]
    rw [hu]
    exact queryGet_symbol_of_plain exchangeInfoUrlString (base ++ quote)
      (by intro c hc; revert c; decide) (by intro c hc; revert c; decide)
      hamp hsemi hhash hun

/-- C5 amended-claim witness: the plain assets BTC and USDT. -/
theorem url_symbol_param_for_plain_assets_witness :
    (("BTC" : String) ≠ "") ∧ (("USDT" : String) ≠ "") ∧
    (∀ c ∈ ("BTC" ++ "USDT").toList, queryPlainChar c = true) ∧
    (∃ st : Binance,
      (Init "BTC" "USDT" (HttpResult.success 200 [])).1 = Except.ok st ∧
      derivedSymbol st = "BTC" ++ "USDT" ∧
      queryGet (rawQueryOf st.priceURL) "symbol" = some ("BTC" ++ "USDT") ∧
      queryGet (rawQueryOf st.exchangeInfoURL) "symbol" = some ("BTC" ++ "USDT")) :=
  ⟨by decide, by decide, by decide,
   url_symbol_param_for_plain_assets "BTC" "USDT" [] (by decide) (by decide) (by decide)⟩

end BinancePlugin
